import Mathlib

/-!
Verification of the fetch-classify-harvest-persist pipeline of `run_crawl.py`.

The development shallowly embeds the pure logic of the crawler (content
addressing, content-type classification, policy evaluation, page
normalization, link harvesting, URL joining) and models the effectful main
loop as a pure state-transition function that returns the ordered trace of
attempted operations (writes, log appends, frontier checkpoints) as an
explicit list of events.

External collaborators are embedded as follows:

* `hashlib.sha1` is implemented in full (padding, 80-round compression)
  over `Nat` with explicit reduction mod 2^32.
* `re.search` over configuration-supplied patterns is an abstract matcher
  parameter of the policy; concrete instantiations use plain substring
  search, which coincides with `re.search` for metacharacter-free patterns.
* `urllib.parse.urljoin` / `urlparse` are implemented following the CPython
  algorithm restricted to scheme/netloc/path (query, fragment and path
  parameters are carried as part of the path; the inputs considered here
  contain neither).
* Network fetches (`crawl4ai` render, aiohttp fallback GET, file GET) are
  oracles supplied as inputs: `download_file` and `fetch_html_fallback`
  catch every exception internally, so their failure modes are part of the
  oracle's value space.
* `datetime.utcnow()` is a string parameter `now`; distinct call sites of a
  single page would return near-identical timestamps and no property here
  depends on their distinctness.
-/

/-! ## Python string helpers -/

/-- Whitespace stripped by Python's `str.strip()` (ASCII subset). -/
def isPySpace (c : Char) : Bool :=
  c = ' ' || c = '\t' || c = '\n' || c = '\r' || c = '\x0b' || c = '\x0c'

/-- Python `str.strip()`. -/
def pyStrip (s : String) : String :=
  String.mk (((s.data.dropWhile isPySpace).reverse.dropWhile isPySpace).reverse)

/-- Substring test on character lists, Python's `pat in s`. -/
def listContainsSub (pat : List Char) : List Char → Bool
  | [] => pat.isEmpty
  | c :: cs => pat.isPrefixOf (c :: cs) || listContainsSub pat cs

/-- Python `pat in s` on strings. -/
def strContains (s pat : String) : Bool :=
  listContainsSub pat.data s.data

/-- Python `s.endswith(suffix)`. -/
def strEndsWith (s sfx : String) : Bool :=
  sfx.data.reverse.isPrefixOf s.data.reverse

/-- Python `s.startswith(p)`. -/
def strStartsWith (s pre : String) : Bool :=
  pre.data.isPrefixOf s.data

/-- Python `s.lower()` (ASCII range, as every input considered here). -/
def strLower (s : String) : String :=
  String.mk (s.data.map Char.toLower)

/-- Worker for single-character `str.split`. -/
def splitOnCharAux (sep : Char) (cur : List Char) : List Char → List String
  | [] => [String.mk cur.reverse]
  | c :: cs =>
    if c = sep then String.mk cur.reverse :: splitOnCharAux sep [] cs
    else splitOnCharAux sep (c :: cur) cs

/-- Python `s.split(sep)` for a one-character separator. -/
def splitOnChar (sep : Char) (s : String) : List String :=
  splitOnCharAux sep [] s.data

/-- Python `sep.join(parts)`. -/
def strIntercalate (sep : String) : List String → String
  | [] => ""
  | [x] => x
  | x :: rest => x ++ sep ++ strIntercalate sep rest

/-- UTF-8 encoding of one scalar value, as `bytes` values 0..255. -/
def encodeChar (c : Char) : List Nat :=
  let n := c.toNat
  if n < 128 then [n]
  else if n < 2048 then [192 + n / 64, 128 + n % 64]
  else if n < 65536 then [224 + n / 4096, 128 + (n / 64) % 64, 128 + n % 64]
  else [240 + n / 262144, 128 + (n / 4096) % 64, 128 + (n / 64) % 64, 128 + n % 64]

/-- Python `s.encode("utf-8")` as a byte list. -/
def utf8Bytes (s : String) : List Nat :=
  (s.data.map encodeChar).flatten

/-- Continuation byte test for UTF-8 decoding. -/
def isContByte (b : Nat) : Bool := 128 ≤ b && b ≤ 191

/-- Fuel-based worker for UTF-8 decoding; every step consumes at least one
byte, so fuel equal to the list length is always sufficient. -/
def decUtf8Aux : Nat → List Nat → List Char
  | 0, _ => []
  | _, [] => []
  | fuel + 1, b :: bs =>
    if b < 128 then Char.ofNat b :: decUtf8Aux fuel bs
    else if 194 ≤ b && b ≤ 223 then
      match bs with
      | b2 :: bs2 =>
        if isContByte b2 then Char.ofNat ((b - 192) * 64 + (b2 - 128)) :: decUtf8Aux fuel bs2
        else decUtf8Aux fuel bs
      | [] => []
    else if 224 ≤ b && b ≤ 239 then
      match bs with
      | b2 :: b3 :: bs3 =>
        if isContByte b2 && isContByte b3 then
          let n := (b - 224) * 4096 + (b2 - 128) * 64 + (b3 - 128)
          if 2048 ≤ n && !(55296 ≤ n && n ≤ 57343) then Char.ofNat n :: decUtf8Aux fuel bs3
          else decUtf8Aux fuel bs
        else decUtf8Aux fuel bs
      | _ => decUtf8Aux fuel bs
    else if 240 ≤ b && b ≤ 244 then
      match bs with
      | b2 :: b3 :: b4 :: bs4 =>
        if isContByte b2 && isContByte b3 && isContByte b4 then
          let n := (b - 240) * 262144 + (b2 - 128) * 4096 + (b3 - 128) * 64 + (b4 - 128)
          if 65536 ≤ n && n ≤ 1114111 then Char.ofNat n :: decUtf8Aux fuel bs4
          else decUtf8Aux fuel bs
        else decUtf8Aux fuel bs
      | _ => decUtf8Aux fuel bs
    else decUtf8Aux fuel bs

/-- Python `bytes.decode("utf-8", "ignore")`: invalid bytes are skipped.
This models the stdlib collaborator; its exact error-recovery granularity is
irrelevant to every property proved below, which hold for arbitrary decoded
strings. -/
def decUtf8 (bs : List Nat) : List Char := decUtf8Aux bs.length bs

/-! ## SHA-1 (`hashlib.sha1`) over `Nat`, values kept below 2^32 -/

/-- Reduction modulo 2^32. -/
def mask32 (x : Nat) : Nat := x % 4294967296

/-- Left rotation of a 32-bit word. -/
def rotl (n x : Nat) : Nat := mask32 (x <<< n) ||| (x >>> (32 - n))

/-- Big-endian 8-byte encoding of a length in bits. -/
def be64 (n : Nat) : List Nat :=
  [(n >>> 56) % 256, (n >>> 48) % 256, (n >>> 40) % 256, (n >>> 32) % 256,
   (n >>> 24) % 256, (n >>> 16) % 256, (n >>> 8) % 256, n % 256]

/-- SHA-1 message padding: 0x80, zeros to 56 mod 64, 64-bit bit length. -/
def sha1pad (msg : List Nat) : List Nat :=
  let L := msg.length
  let z := (119 - L % 64) % 64
  msg ++ (128 :: List.replicate z 0) ++ be64 (8 * L)

/-- Fuel-based worker splitting a byte list into 64-byte blocks; each step
consumes at least one byte. -/
def chunks64Aux : Nat → List Nat → List (List Nat)
  | 0, _ => []
  | _, [] => []
  | fuel + 1, l@(_ :: _) => l.take 64 :: chunks64Aux fuel (l.drop 64)

/-- Split a byte list into 64-byte blocks. -/
def chunks64 (l : List Nat) : List (List Nat) := chunks64Aux l.length l

/-- Big-endian 32-bit words from bytes. -/
def toWords : List Nat → List Nat
  | a :: b :: c :: d :: rest => (((a * 256 + b) * 256 + c) * 256 + d) :: toWords rest
  | _ => []

/-- One step of the SHA-1 message-schedule expansion. -/
def expandStep (ws : List Nat) : List Nat :=
  let n := ws.length
  ws ++ [rotl 1 ((ws.getD (n - 3) 0 ^^^ ws.getD (n - 8) 0) ^^^
                 (ws.getD (n - 14) 0 ^^^ ws.getD (n - 16) 0))]

/-- Iterated message-schedule expansion. -/
def expandW : Nat → List Nat → List Nat
  | 0, ws => ws
  | k + 1, ws => expandW k (expandStep ws)

/-- SHA-1 round function. -/
def sha1f (t b c d : Nat) : Nat :=
  if t < 20 then (b &&& c) ||| ((b ^^^ 4294967295) &&& d)
  else if t < 40 then (b ^^^ c) ^^^ d
  else if t < 60 then ((b &&& c) ||| (b &&& d)) ||| (c &&& d)
  else (b ^^^ c) ^^^ d

/-- SHA-1 round constants. -/
def sha1k (t : Nat) : Nat :=
  if t < 20 then 1518500249
  else if t < 40 then 1859775393
  else if t < 60 then 2400959708
  else 3395469782

/-- The 80 SHA-1 rounds over the expanded schedule. -/
def sha1rounds : List Nat → Nat → Nat × Nat × Nat × Nat × Nat → Nat × Nat × Nat × Nat × Nat
  | [], _, st => st
  | w :: ws, t, (a, b, c, d, e) =>
    let tmp := mask32 (rotl 5 a + sha1f t b c d + e + sha1k t + w)
    sha1rounds ws (t + 1) (tmp, a, rotl 30 b, c, d)

/-- Process one 64-byte block. -/
def sha1block (h : Nat × Nat × Nat × Nat × Nat) (block : List Nat) :
    Nat × Nat × Nat × Nat × Nat :=
  let (h0, h1, h2, h3, h4) := h
  let ws := expandW 64 (toWords block)
  let (a, b, c, d, e) := sha1rounds ws 0 (h0, h1, h2, h3, h4)
  (mask32 (h0 + a), mask32 (h1 + b), mask32 (h2 + c), mask32 (h3 + d), mask32 (h4 + e))

/-- Fold over all blocks. -/
def sha1blocks : List (List Nat) → Nat × Nat × Nat × Nat × Nat → Nat × Nat × Nat × Nat × Nat
  | [], h => h
  | b :: bs, h => sha1blocks bs (sha1block h b)

/-- The five 32-bit digest words of a byte message. -/
def sha1digestWords (msg : List Nat) : List Nat :=
  let r := sha1blocks (chunks64 (sha1pad msg))
    (1732584193, 4023233417, 2562383102, 271733878, 3285377520)
  [r.1, r.2.1, r.2.2.1, r.2.2.2.1, r.2.2.2.2]

/-- Lowercase hexadecimal digits. -/
def hexDigits : List Char := "0123456789abcdef".data

/-- Hex digit of the low nibble. -/
def hexChar (n : Nat) : Char := hexDigits.getD (n % 16) '0'

/-- Eight hex characters of a 32-bit word, big-endian. -/
def wordHex (w : Nat) : List Char :=
  [28, 24, 20, 16, 12, 8, 4, 0].map (fun k => hexChar (w >>> k))

/-- Python `hashlib.sha1(msg).hexdigest()`. -/
def sha1hex (msg : List Nat) : String :=
  String.mk (((sha1digestWords msg).map wordHex).flatten)

/-- Source `safe_filename`: first 16 hex characters of the SHA-1 of the
UTF-8 encoded URL, followed by the extension. -/
def safe_filename (url ext : String) : String :=
  String.mk ((sha1hex (utf8Bytes url)).data.take 16) ++ ext

set_option maxRecDepth 4096

/-- Validation of the embedded SHA-1 against the official digest of the
worked URL. -/
theorem sha1hex_reference_check : sha1hex (utf8Bytes "https://x.edu/a") =
    "7c13194e385a3ef173791e52a9d5f5fc61ef0561" := by decide

/-! ## Content classification (`pick_ext_by_ct`) -/

/-- Source `pick_ext_by_ct`: substring checks on the lowered content type in
a fixed priority order; a falsy (absent or empty) content type yields
`.bin`. -/
def pick_ext_by_ct : Option String → String
  | none => ".bin"
  | some s =>
    if s = "" then ".bin"
    else
      let ct := strLower s
      if strContains ct "pdf" then ".pdf"
      else if strContains ct "msword" || strContains ct "officedocument.wordprocessingml" then ".docx"
      else if strContains ct "html" then ".html"
      else if strContains ct "spreadsheet" || strContains ct "excel" then ".xlsx"
      else if strContains ct "presentation" || strContains ct "powerpoint" then ".pptx"
      else ".bin"

/-- Modelled from the spec's words in section 4.6: the priority table of
marker substrings and extensions, used to restate `pick_ext_by_ct`
independently of the source. -/
def extTable : List (List String × String) :=
  [(["pdf"], ".pdf"),
   (["msword", "officedocument.wordprocessingml"], ".docx"),
   (["html"], ".html"),
   (["spreadsheet", "excel"], ".xlsx"),
   (["presentation", "powerpoint"], ".pptx")]

/-- Modelled from the spec's words in section 4.6: first matching table row
wins, default `.bin`, also for an absent or empty content type. -/
def pickExtSpec (ct : Option String) : String :=
  match ct with
  | none => ".bin"
  | some s =>
    if s = "" then ".bin"
    else
      match extTable.find? (fun row => row.1.any (fun m => strContains (strLower s) m)) with
      | some row => row.2
      | none => ".bin"

/-! ## URL parsing and joining (`urllib.parse` collaborator) -/

/-- Characters allowed in a URL scheme after the first letter. -/
def isSchemeChar (c : Char) : Bool :=
  c.isAlphanum || c = '+' || c = '-' || c = '.'

/-- Split off a leading `scheme:` when present; `none` when the colon is
missing or the candidate scheme contains an invalid character. -/
def splitSchemeAux (acc : List Char) : List Char → Option (List Char × List Char)
  | [] => none
  | c :: cs =>
    if c = ':' then some (acc.reverse, cs)
    else if isSchemeChar c then splitSchemeAux (c :: acc) cs
    else none

/-- Scheme, netloc and path of a URL. -/
structure UrlParts where
  scheme : String
  netloc : String
  path : String
deriving Repr, DecidableEq, BEq

/-- CPython `urlparse` restricted to scheme, netloc and path; query,
fragment and parameters are carried inside the path. -/
def urlparse3 (s : String) : UrlParts :=
  let p : String × List Char :=
    match splitSchemeAux [] s.data with
    | some (sch, r) =>
      if sch ≠ [] && (sch.headD 'a').isAlpha then (String.mk (sch.map Char.toLower), r)
      else ("", s.data)
    | none => ("", s.data)
  match p.2 with
  | '/' :: '/' :: r2 =>
    let nl := r2.takeWhile (fun c => c ≠ '/' && c ≠ '?' && c ≠ '#')
    { scheme := p.1, netloc := String.mk nl, path := String.mk (r2.drop nl.length) }
  | _ => { scheme := p.1, netloc := "", path := String.mk p.2 }

/-- CPython `urlunparse` on scheme, netloc, path. -/
def urlunparse3 (scheme netloc path : String) : String :=
  let url :=
    if netloc ≠ "" || strStartsWith path "//" then
      "//" ++ netloc ++ (if path ≠ "" && !strStartsWith path "/" then "/" ++ path else path)
    else path
  if scheme ≠ "" then scheme ++ ":" ++ url else url

/-- CPython `urljoin` helper: drop the last path segment of the base unless
it is already empty. -/
def dropLastSeg (parts : List String) : List String :=
  if parts.getLastD "" ≠ "" then parts.dropLast else parts

/-- CPython `urljoin` helper: remove empty strings from the middle of the
segment list, keeping the first and last entries. -/
def keepEndsFilter (segs : List String) : List String :=
  match segs with
  | [] => []
  | [x] => [x]
  | x :: rest => x :: ((rest.dropLast.filter (fun s => s ≠ "")) ++ [rest.getLastD ""])

/-- CPython `urljoin` dot-segment loop: `..` pops, `.` is skipped. -/
def dotSteps (acc : List String) : List String → List String
  | [] => acc.reverse
  | seg :: rest =>
    if seg = ".." then dotSteps acc.tail rest
    else if seg = "." then dotSteps acc rest
    else dotSteps (seg :: acc) rest

/-- CPython `urljoin` restricted to scheme/netloc/path resolution with
dot-segment removal, following the stdlib algorithm. -/
def urljoin (base url : String) : String :=
  if base = "" then url
  else if url = "" then base
  else
    let b := urlparse3 base
    let u := urlparse3 url
    let scheme := if u.scheme = "" then b.scheme else u.scheme
    if scheme ≠ b.scheme then url
    else if u.netloc ≠ "" then urlunparse3 scheme u.netloc u.path
    else if u.path = "" then urlunparse3 scheme b.netloc b.path
    else
      let segments :=
        if strStartsWith u.path "/" then splitOnChar '/' u.path
        else keepEndsFilter (dropLastSeg (splitOnChar '/' b.path) ++ splitOnChar '/' u.path)
      let resolved :=
        let r := dotSteps [] segments
        if segments.getLastD "" = ".." || segments.getLastD "" = "." then r ++ [""] else r
      let path := strIntercalate "/" resolved
      urlunparse3 scheme b.netloc (if path = "" then "/" else path)

/-- Validation of the embedded `urljoin` against the stdlib on the
resolutions the claims rely on, including the worked relative-link case of
the specification. -/
theorem urljoin_reference_check :
    urljoin "https://h/a.pdf" "a.pdf" = "https://h/a.pdf" ∧
    urljoin "https://h/x/y" "/a/b.pdf" = "https://h/a/b.pdf" ∧
    urljoin "https://h" "a.pdf" = "https://h/a.pdf" ∧
    (urlparse3 "https://uit.edu.vn/docs/archive/y").netloc = "uit.edu.vn" := by
  exact ⟨by decide, by decide, by decide, by decide⟩

/-! ## Policy evaluation (`is_allowed`, `allowed_by_domain`) -/

/-- Source `is_allowed`. The matcher `m` stands for the external
`re.search(pattern, url) is not None` collaborator, applied to
configuration-supplied patterns. -/
def is_allowed (m : String → String → Bool) (url : String) (inc exc : List String) : Bool :=
  let ok := if inc.isEmpty then true else inc.any (fun p => m p url)
  let bad := if exc.isEmpty then false else exc.any (fun p => m p url)
  ok && !bad

/-- Source `allowed_by_domain`: the lowered host equals a listed domain or
ends with a dot followed by it. -/
def allowed_by_domain (url : String) (doms : List String) : Bool :=
  let host := (urlparse3 url).netloc |> strLower
  doms.any (fun d => host == d || strEndsWith host ("." ++ d))

/-- The scope policy handed to the pipeline, read-only for the run. -/
structure Policy where
  reSearch : String → String → Bool
  include_patterns : List String
  exclude_patterns : List String
  allowed_domains : List String
  file_extensions : List String

/-- The acceptance computed by `main` for each page URL: pattern verdict,
overridden to true when the domain allow-list matches. -/
def mainAllowed (pol : Policy) (url : String) : Bool :=
  let allowed := is_allowed pol.reSearch url pol.include_patterns pol.exclude_patterns
  if !allowed && allowed_by_domain url pol.allowed_domains then true else allowed

/-- Substring search usable as the matcher for metacharacter-free patterns,
where `re.search` degenerates to containment. -/
def substrSearch (pat url : String) : Bool := strContains url pat

/-- Source `looks_like_file`: the lowered URL ends with one of the
configured extensions. -/
def looks_like_file (url : String) (exts : List String) : Bool :=
  exts.any (fun e => strEndsWith (strLower url) e)

/-! ## Page model and normalizer -/

/-- A Python value carried by a page attribute: `str` or `bytes`.  The
normalizer's probing skips values of any other type exactly as it skips the
absent ones, so other types are not distinguished here. -/
inductive PyVal where
  | pstr (s : String)
  | pbytes (bs : List Nat)
deriving Repr, DecidableEq, BEq

/-- Python truthiness of a page attribute value. -/
def pyTruthy : PyVal → Bool
  | .pstr s => s ≠ ""
  | .pbytes bs => !bs.isEmpty

/-- An entry of an adapter-native link list: a string or anything else
(discarded by the harvester's `isinstance` guard). -/
inductive LinkItem where
  | lstr (s : String)
  | lother
deriving Repr, DecidableEq, BEq

/-- A fetch result of unknown concrete shape.  Fields are exactly the
attributes the source probes with `getattr`; `none` is an absent attribute. -/
structure Page where
  url : Option String := none
  status : Option Int := none
  content_type : Option String := none
  mime_type : Option String := none
  html : Option PyVal := none
  rendered_html : Option PyVal := none
  content_html : Option PyVal := none
  cleaned_html : Option PyVal := none
  content : Option PyVal := none
  text : Option PyVal := none
  markdown : Option PyVal := none
  markdown_v2 : Option PyVal := none
  out_links : Option (List LinkItem) := none
  outgoing_urls : Option (List LinkItem) := none
  links : Option (List LinkItem) := none
  hrefs : Option (List LinkItem) := none
  urls : Option (List LinkItem) := none
  domain : Option String := none
deriving Repr, DecidableEq, BEq

/-- Source `page_content_type`: `content_type or mime_type` with Python
falsiness of `None` and the empty string. -/
def page_content_type (p : Page) : Option String :=
  match p.content_type with
  | some s => if s ≠ "" then some s else p.mime_type
  | none => p.mime_type

/-- The string a probed attribute value yields: a `str` itself, `bytes`
after decoding. -/
def pvToStr : PyVal → String
  | .pstr s => s
  | .pbytes bs => String.mk (decUtf8 bs)

/-- The ordered attribute list probed by `page_html_text`, with names. -/
def htmlAttrs (p : Page) : List (String × Option PyVal) :=
  [("html", p.html), ("rendered_html", p.rendered_html), ("content_html", p.content_html),
   ("cleaned_html", p.cleaned_html), ("content", p.content), ("text", p.text),
   ("markdown", p.markdown), ("markdown_v2", p.markdown_v2)]

/-- First candidate attribute whose value is a non-blank string (possibly
after byte decoding); markdown-style values get a `pre` wrapper. -/
def firstHtmlAttr : List (String × Option PyVal) → Option String
  | [] => none
  | (name, v) :: rest =>
    match v with
    | none => firstHtmlAttr rest
    | some pv =>
      let s := pvToStr pv
      if pyStrip s ≠ "" then
        if strStartsWith name "markdown" then some ("<pre>\n" ++ s ++ "\n</pre>") else some s
      else firstHtmlAttr rest

/-- Source `page_html_text`. -/
def page_html_text (p : Page) : Option String :=
  firstHtmlAttr (htmlAttrs p)

/-- Source `page_is_html`: non-empty normalized HTML text, or a content
type containing `html`. -/
def page_is_html (p : Page) : Bool :=
  (page_html_text p).isSome ||
    (match page_content_type p with
     | some ct => ct ≠ "" && strContains (strLower ct) "html"
     | none => false)

/-! ## Link harvester (`page_links`) -/

/-- Quote characters of the attribute-scanning pattern. -/
def isQuote (c : Char) : Bool := c = '"' || c = '\''

/-- After `href=` or `src=`: an opening quote, one or more non-quote
characters (the capture), a closing quote of either kind.  Returns the
capture and the rest of the input.  Greedy matching with a maximal non-quote
run is equivalent to the regex because any shorter run is followed by a
non-quote character. -/
def matchAfterEq : List Char → Option (String × List Char)
  | [] => none
  | q :: rest =>
    if isQuote q then
      let grp := rest.takeWhile (fun c => !isQuote c)
      match rest.drop grp.length with
      | q2 :: rest3 => if !grp.isEmpty && isQuote q2 then some (String.mk grp, rest3) else none
      | [] => none
    else none

/-- Try the alternation `href=` / `src=` at the current position. -/
def tryAttrMatch (l : List Char) : Option (String × List Char) :=
  if "href=".data.isPrefixOf l then matchAfterEq (l.drop 5)
  else if "src=".data.isPrefixOf l then matchAfterEq (l.drop 4)
  else none

/-- Fuel-based left-to-right non-overlapping scan; every step consumes at
least one character, so fuel equal to the input length is sufficient.
Models `re.findall` with the source pattern. -/
def scanAttrAux : Nat → List Char → List String
  | 0, _ => []
  | _, [] => []
  | fuel + 1, c :: cs =>
    match tryAttrMatch (c :: cs) with
    | some (s, rest) => s :: scanAttrAux fuel rest
    | none => scanAttrAux fuel cs

/-- All `href=` / `src=` attribute values in the text, in order. -/
def scanAttr (s : String) : List String :=
  scanAttrAux s.data.length s.data

/-- The adapter-native link fields probed, in priority order. -/
def linkAttrs (p : Page) : List (Option (List LinkItem)) :=
  [p.out_links, p.outgoing_urls, p.links, p.hrefs, p.urls]

/-- Candidates contributed by the native link fields: every truthy field
extends the list, in priority order. -/
def nativeCandidates (p : Page) : List LinkItem :=
  ((linkAttrs p).map (fun v =>
    match v with
    | some l => if !l.isEmpty then l else []
    | none => [])).flatten

/-- Candidates contributed by the pattern scan of the normalized HTML. -/
def scanCandidates (p : Page) : List String :=
  match page_html_text p with
  | some h => scanAttr h
  | none => []

/-- The source's fused cleanup loop: keep strings, strip, drop blanks and
already-seen values. -/
def dedupLoop : List LinkItem → List String → List String
  | [], _ => []
  | .lstr s :: rest, seenL =>
    let u := pyStrip s
    if u = "" || seenL.contains u then dedupLoop rest seenL
    else u :: dedupLoop rest (u :: seenL)
  | .lother :: rest, seenL => dedupLoop rest seenL

/-- Source `page_links`. -/
def page_links (p : Page) : List String :=
  dedupLoop (nativeCandidates p ++ (scanCandidates p).map LinkItem.lstr) []

/-- Modelled from the spec's words in section 4.4: candidates from the
FIRST non-empty native link field only, then the scan; used to compare the
spec's description with the source. -/
def firstNativeField : List (Option (List LinkItem)) → List LinkItem
  | [] => []
  | some l :: rest => if !l.isEmpty then l else firstNativeField rest
  | none :: rest => firstNativeField rest

/-- Modelled from the spec's words in section 4.4: harvested links per the
specified first-non-empty-field rule. -/
def page_links_specFirst (p : Page) : List String :=
  dedupLoop (firstNativeField (linkAttrs p) ++ (scanCandidates p).map LinkItem.lstr) []

/-- Cleanup of one candidate as the specification describes it: non-strings
and blank-after-strip entries are discarded, others are kept stripped. -/
def cleanItem : LinkItem → Option String
  | .lstr s => let u := pyStrip s; if u = "" then none else some u
  | .lother => none

/-- Generic first-seen-order deduplication. -/
def dedupKeepFirst : List String → List String
  | [] => []
  | x :: xs => x :: dedupKeepFirst (xs.filter (fun y => y ≠ x))
termination_by l => l.length
decreasing_by
  exact Nat.lt_succ_of_le (List.length_filter_le _ _)

/-- Validation of the attribute scanner and harvester against
`re.findall` behavior on a small document. -/
theorem page_links_reference_check :
    scanAttr "<a href='a.pdf'>x</a>" = ["a.pdf"] ∧
    page_links { html := some (.pstr "<a href='x'>b</a><img src=\"y\"/><a href='x'>c</a>") } =
      ["x", "y"] := by
  exact ⟨by decide, by decide⟩

/-! ## Sidecar metadata, effects, pipeline state -/

/-- The `PageMeta` pydantic model: one sidecar record.  Serialization to
JSON is the external pydantic collaborator; effects carry the record
itself. -/
structure PageMeta where
  url : String
  fetched_at : String
  status : Option Int := none
  content_type : Option String := none
  file_path : Option String := none
  html_path : Option String := none
  out_links : List String := []
  domain : Option String := none
  notes : Option String := none
deriving Repr, DecidableEq, BEq

/-- Result of the `download_file` oracle: body, content type, status.  The
function catches every exception and returns an empty body with `None`
fields in that case, so failures are points of this value space. -/
structure DlRes where
  body : List Nat := []
  ctype : Option String := none
  status : Option Int := none
deriving Repr, DecidableEq, BEq

/-- Mutable run state threaded through the main loop. -/
structure CrawlState where
  seen : List String := []
  fetched : Nat := 0
  htmlN : Nat := 0
  fileN : Nat := 0
deriving Repr, DecidableEq, BEq

/-- One attempted operation of the run, in program order.  Events that are
in-memory only (`addSeen`) and the oracle invocations (`renderCall`,
`fallbackCall`, `downloadCall`) are recorded alongside the I/O writes so
ordering properties can be stated on the trace.  `typeError` is the
`write_bytes` call at the given path applied to a `str` body: CPython
raises an uncaught TypeError there, terminating the run, so it is the
final event of the raising page — that page produces no sidecar, file or
log write, and whatever an enclosing loop's trace lists after it is only
what the source would have attempted had the call not raised.  Its raising
is unconditional, not a schedulable I/O outcome, so the failure-injection
replay below treats it as a non-I/O event. -/
inductive Effect where
  | renderCall (seed : String)
  | fallbackCall (seed : String)
  | downloadCall (url : String)
  | addSeen (url : String)
  | writeHtml (path : String) (body : String)
  | writeMeta (path : String) (meta : PageMeta)
  | writeFile (path : String) (body : List Nat)
  | logLine (line : String)
  | saveSeen (urls : List String)
  | typeError (path : String)
deriving Repr, DecidableEq, BEq

/-- Python `str(x)` for an optional int. -/
def pyShowOptInt : Option Int → String
  | none => "None"
  | some n => toString n

/-- The attempt-log line of a processed page. -/
def attemptLine (now url : String) (status : Option Int) : String :=
  "[" ++ now ++ "] " ++ url ++ " status=" ++ pyShowOptInt status

/-- Processing of one harvested file link on the HTML path: resolve
against the page URL, download, skip with a log line on an empty body,
otherwise write the body and its sidecar. -/
def downloadStep (dl : String → DlRes) (now pageUrl : String) (pageDomain : Option String)
    (raw : String) : List Effect × Nat :=
  let f_url := urljoin pageUrl raw
  let r := dl f_url
  if r.body.isEmpty then
    ([.downloadCall f_url,
      .logLine ("[" ++ now ++ "] FileError " ++ f_url ++ " -> empty/failed")], 0)
  else
    let f_name := safe_filename f_url (pick_ext_by_ct r.ctype)
    ([.downloadCall f_url,
      .writeFile ("output_raw/files/" ++ f_name) r.body,
      .writeMeta ("output_raw/meta/" ++ f_name ++ ".json")
        { url := f_url, fetched_at := now, status := r.status, content_type := r.ctype,
          file_path := some ("output_raw/files/" ++ f_name),
          domain := pageDomain, notes := some ("discovered from " ++ pageUrl) }], 1)

/-- The download loop over the harvested file-like links. -/
def downloadAll (dl : String → DlRes) (now pageUrl : String) (pageDomain : Option String) :
    List String → List Effect × Nat
  | [] => ([], 0)
  | raw :: rest =>
    let s := downloadStep dl now pageUrl pageDomain raw
    let t := downloadAll dl now pageUrl pageDomain rest
    (s.1 ++ t.1, s.2 + t.2)

/-- The navigable-page branch: optional HTML body write, unconditional
sidecar with harvested links, then the file-link download loop.  Returns
the effects, the html-counter increment and the file-counter increment. -/
def htmlBranch (pol : Policy) (dl : String → DlRes) (now url : String) (page : Page) :
    List Effect × Nat × Nat :=
  let html_text := (page_html_text page).getD ""
  let hp := "output_raw/html/" ++ safe_filename url ".html"
  let hEffs : List Effect := if html_text ≠ "" then [.writeHtml hp html_text] else []
  let out_links := page_links page
  let meta : PageMeta :=
    { url := url, fetched_at := now, status := page.status,
      content_type := page_content_type page,
      html_path := if html_text ≠ "" then some hp else none,
      out_links := out_links, domain := page.domain }
  let to_download := out_links.filter (fun l => looks_like_file l pol.file_extensions)
  let d := downloadAll dl now url page.domain to_download
  (hEffs ++ [.writeMeta ("output_raw/meta/" ++ safe_filename url ".json") meta] ++ d.1,
   (if html_text ≠ "" then 1 else 0), d.2)

/-- Python `getattr(page, "content", None) or b""` on the direct-file
path: `none` when the attribute is absent or falsy (the branch then falls
back to a fresh download), otherwise the truthy `str` or `bytes` value
itself.  The distinction matters because `write_bytes` accepts only a
bytes-like body. -/
def directContent (page : Page) : Option PyVal :=
  match page.content with
  | some v => if pyTruthy v then some v else none
  | none => none

/-- Writing a non-empty direct-file body and its sidecar. -/
def directWrite (now url : String) (dom : Option String) (body : List Nat)
    (ctype : Option String) (status : Option Int) : List Effect :=
  let f_name := safe_filename url (pick_ext_by_ct ctype)
  [.writeFile ("output_raw/files/" ++ f_name) body,
   .writeMeta ("output_raw/meta/" ++ f_name ++ ".json")
     { url := url, fetched_at := now, status := status, content_type := ctype,
       file_path := some ("output_raw/files/" ++ f_name), domain := dom }]

/-- The direct-file branch.  Returns effects, the file-counter increment
and whether control falls through to the attempt-log tail (the empty-binary
case issues `continue`, skipping it; the raising str-body case terminates
the run, so nothing follows either).  A falsy carried body triggers the
fresh download, whose result is always bytes; a truthy `bytes` body is
written with its sidecar; a truthy `str` body reaches `write_bytes`, which
raises the uncaught TypeError recorded as `Effect.typeError` — before any
sidecar, file or log write for the page. -/
def directBranch (dl : String → DlRes) (now url : String) (page : Page) :
    List Effect × Nat × Bool :=
  match directContent page with
  | none =>
    let r := dl url
    if r.body.isEmpty then
      ([.downloadCall url,
        .logLine ("[" ++ now ++ "] DirectFileError " ++ url),
        .writeMeta ("output_raw/meta/" ++ safe_filename url ".json")
          { url := url, fetched_at := now, status := r.status, content_type := r.ctype,
            domain := page.domain, notes := some "empty binary" }], 0, false)
    else
      (Effect.downloadCall url :: directWrite now url page.domain r.body r.ctype r.status, 1, true)
  | some (.pbytes bs) =>
    (directWrite now url page.domain bs (page_content_type page) page.status, 1, true)
  | some (.pstr _) =>
    ([Effect.typeError
        ("output_raw/files/" ++ safe_filename url (pick_ext_by_ct (page_content_type page)))],
     0, false)

/-- Branch dispatch of the classification stage: effects, html-counter
increment, file-counter increment, fall-through flag. -/
def pageBranch (pol : Policy) (dl : String → DlRes) (now url : String) (page : Page) :
    List Effect × Nat × Nat × Bool :=
  if page_is_html page then
    let hb := htmlBranch pol dl now url page
    (hb.1, hb.2.1, hb.2.2, true)
  else
    let db := directBranch dl now url page
    (db.1, 0, db.2.1, db.2.2)

/-- Processing of one page of the inner loop of `main`: missing URL,
frontier membership and policy checks, frontier insertion, branch dispatch,
attempt-log line and periodic frontier checkpoint. -/
def processPage (pol : Policy) (dl : String → DlRes) (now : String) (st : CrawlState)
    (page : Page) : CrawlState × List Effect :=
  match page.url with
  | none => (st, [])
  | some url =>
    if st.seen.contains url then (st, [])
    else if mainAllowed pol url then
      let seen' := url :: st.seen
      let fetched' := st.fetched + 1
      let br := pageBranch pol dl now url page
      let tailEffs : List Effect :=
        if br.2.2.2 then
          Effect.logLine (attemptLine now url page.status) ::
            (if fetched' % 100 == 0 then [Effect.saveSeen seen'] else [])
        else []
      ({ seen := seen', fetched := fetched', htmlN := st.htmlN + br.2.1,
         fileN := st.fileN + br.2.2.1 },
       Effect.addSeen url :: (br.1 ++ tailEffs))
    else (st, [])

/-- The page loop over the normalized pages of one seed. -/
def processPages (pol : Policy) (dl : String → DlRes) (now : String) :
    CrawlState → List Page → CrawlState × List Effect
  | st, [] => (st, [])
  | st, p :: ps =>
    let r1 := processPage pol dl now st p
    let r2 := processPages pol dl now r1.1 ps
    (r2.1, r1.2 ++ r2.2)

/-! ## Render stage, fallback, seed loop -/

/-- Result of the fallback HTTP GET when it does not raise: status,
headers content type, decoded text. -/
structure FBRes where
  status : Int
  ctype : Option String := none
  text : String
deriving Repr, DecidableEq, BEq

/-- The `_PseudoPage` constructor.  `domain` is `url.split("/")[2]`; with
fewer than three parts the lookup raises inside the caller's handler and
the fallback yields nothing, hence the `Option`. -/
def mkPseudoPage (url : String) (r : FBRes) : Option Page :=
  match (splitOnChar '/' url).get? 2 with
  | none => none
  | some dom =>
    some { url := some url, status := some r.status, content_type := r.ctype,
           html := some (.pstr r.text), domain := some dom }

/-- Shape of a raw render-stage result, as `normalize_pages` distinguishes
them: `None`, a sequence, a container with a `pages` or `results`
attribute, or a single page object. -/
inductive RenderRaw where
  | noneRes
  | listRes (l : List Page)
  | pagesContainer (l : List Page)
  | resultsContainer (l : List Page)
  | objRes (p : Page)
deriving Inhabited

/-- Source `normalize_pages`. -/
def normalize_pages : RenderRaw → List Page
  | .noneRes => []
  | .listRes l => l
  | .pagesContainer l => l
  | .resultsContainer l => l
  | .objRes p => [p]

/-- Processing of one seed: one render attempt (an exception is logged),
one conditional fallback attempt when no pages resulted, then the page
loop.  `render` is the render-stage oracle (`.error` is a raised
exception), `fb` the fallback oracle (`none` is a raised exception). -/
def processSeed (pol : Policy) (dl : String → DlRes) (now : String) (st : CrawlState)
    (seed : String) (render : Except String RenderRaw) (fb : Option FBRes) :
    CrawlState × List Effect :=
  let pre : List Page × List Effect :=
    match render with
    | .ok r => (normalize_pages r, [.renderCall seed])
    | .error msg =>
      ([], [.renderCall seed,
            .logLine ("[" ++ now ++ "] PlaywrightError " ++ seed ++ " -> " ++ msg)])
  let withFb : List Page × List Effect :=
    if pre.1.isEmpty then
      match fb.bind (mkPseudoPage seed) with
      | some p => ([p], pre.2 ++ [.fallbackCall seed])
      | none => ([], pre.2 ++ [.fallbackCall seed])
    else pre
  let r := processPages pol dl now st withFb.1
  (r.1, withFb.2 ++ r.2)

/-- One seed of the run as input data: seed URL, render oracle, fallback
oracle. -/
structure SeedRun where
  seed : String
  render : Except String RenderRaw
  fb : Option FBRes

/-- The whole crawl after startup: the seed loop followed by the final
frontier checkpoint.  The initial state stands for the loaded frontier (a
missing or corrupt file degrades to the empty set upstream). -/
def runCrawl (pol : Policy) (dl : String → DlRes) (now : String) :
    CrawlState → List SeedRun → CrawlState × List Effect
  | st, [] => (st, [Effect.saveSeen st.seen])
  | st, sr :: rest =>
    let r1 := processSeed pol dl now st sr.seed sr.render sr.fb
    let r2 := runCrawl pol dl now r1.1 rest
    (r2.1, r1.2 ++ r2.2)

/-! ## Failure injection over the trace -/

/-- Whether an effect is a filesystem operation at all.  In-memory frontier
insertion and the oracle invocations are not (their failure modes are
caught inside the respective helpers and already part of the oracle value
space). -/
def effIsIO : Effect → Bool
  | .writeHtml _ _ => true
  | .writeMeta _ _ => true
  | .writeFile _ _ => true
  | .logLine _ => true
  | .saveSeen _ => true
  | _ => false

/-- Whether the source wraps the operation in `try/except`: only the
frontier checkpoint writes are, all other writes and the log appends are
bare. -/
def effCatchable : Effect → Bool
  | .saveSeen _ => true
  | _ => false

/-- Replay of a trace against a per-operation failure schedule, with the
source's exception structure: a failing catchable operation is skipped and
the run continues, a failing uncatchable operation terminates the run with
the Python exception escaping `main`. -/
def runEffects : List Bool → List Effect → Except Effect (List Effect)
  | _, [] => .ok []
  | fails, e :: es =>
    if fails.headD false && effIsIO e then
      if effCatchable e then runEffects fails.tail es
      else .error e
    else
      match runEffects fails.tail es with
      | .ok l => .ok (e :: l)
      | .error x => .error x

/-- Whether the replay crashed. -/
def crashed : Except Effect (List Effect) → Bool
  | .error _ => true
  | .ok _ => false

/-! ## Trace counting helpers -/

/-- Number of sidecar records written for a given URL in a trace. -/
def countMetaFor (u : String) (effs : List Effect) : Nat :=
  effs.countP (fun e =>
    match e with
    | .writeMeta _ m => m.url == u
    | _ => false)

/-- Number of fallback invocations for a given seed in a trace. -/
def countFallbackFor (s : String) (effs : List Effect) : Nat :=
  effs.countP (fun e =>
    match e with
    | .fallbackCall t => t == s
    | _ => false)

/-- Number of attempt-log lines in a trace. -/
def countLogLines (effs : List Effect) : Nat :=
  effs.countP (fun e =>
    match e with
    | .logLine _ => true
    | _ => false)

/-- Number of HTML-body writes whose content address belongs to a URL. -/
def countHtmlFor (u : String) (effs : List Effect) : Nat :=
  effs.countP (fun e =>
    match e with
    | .writeHtml p _ => p == "output_raw/html/" ++ safe_filename u ".html"
    | _ => false)

/-- Number of binary-body writes in a trace. -/
def countFileWrites (effs : List Effect) : Nat :=
  effs.countP (fun e =>
    match e with
    | .writeFile _ _ => true
    | _ => false)

/-- The policy of the worked examples: no patterns, one allowed domain. -/
def polEx : Policy :=
  { reSearch := substrSearch, include_patterns := [], exclude_patterns := [],
    allowed_domains := [], file_extensions := [".pdf", ".doc", ".docx"] }

/-- Download oracle of the worked examples: one known PDF, everything else
fails. -/
def dlEx : String → DlRes := fun u =>
  if u = "https://h/a.pdf" then { body := [37], ctype := some "application/pdf", status := some 200 }
  else {}

/-- A page whose own URL is a file-like link of its own HTML. -/
def selfLinkPage : Page :=
  { url := some "https://h/a.pdf", status := some 200,
    html := some (.pstr "<a href='a.pdf'>x</a>") }


/-! ## C1: idempotence of re-runs for frontier members -/

/-- A page whose URL is already in the frontier is dropped before anything
else happens: same state, empty trace, whatever the policy says. -/
theorem processPage_of_seen (pol : Policy) (dl : String → DlRes) (now u : String)
    (st : CrawlState) (page : Page)
    (hurl : page.url = some u) (hseen : st.seen.contains u = true) :
    processPage pol dl now st page = (st, []) := by
  unfold processPage
  rw [hurl]
  simp only [hseen]
  simp

/-- C1: for a URL U present in the loaded frontier, processing any list of
pages all carrying U yields no sidecar write, no HTML write, no file write,
indeed no effect at all, and leaves the frontier (and the whole state)
unchanged — uniformly in the policy, because the frontier membership check
precedes policy evaluation. -/
theorem C1_frontier_skip (pol : Policy) (dl : String → DlRes) (now u : String)
    (st : CrawlState) (pages : List Page)
    (hseen : st.seen.contains u = true)
    (hall : ∀ p ∈ pages, p.url = some u) :
    processPages pol dl now st pages = (st, []) := by
  induction pages with
  | nil => rfl
  | cons p ps ih =>
    have hp := hall p (List.mem_cons_self p ps)
    have h2 := ih (fun q hq => hall q (List.mem_cons_of_mem p hq))
    simp [processPages, processPage_of_seen pol dl now u st p hp hseen, h2]

/-- Witness for C1 at a concrete pre-populated frontier and page list. -/
theorem C1_frontier_skip_witness :
    processPages polEx dlEx "T" { seen := ["https://a.edu/x"] }
        [{ url := some "https://a.edu/x" }, { url := some "https://a.edu/x" }] =
      ({ seen := ["https://a.edu/x"] }, []) :=
  C1_frontier_skip polEx dlEx "T" "https://a.edu/x" { seen := ["https://a.edu/x"] }
    [{ url := some "https://a.edu/x" }, { url := some "https://a.edu/x" }]
    (by decide) (by simp)

/-! ## C2: frontier insertion before any side effect -/

/-- C2: a URL passing the frontier and policy checks is inserted into the
frontier first — the `addSeen` event heads the page's trace, before any
write, download or log append — and the new frontier is the old one plus
the URL. -/
theorem C2_insert_first (pol : Policy) (dl : String → DlRes) (now u : String)
    (st : CrawlState) (page : Page)
    (hurl : page.url = some u)
    (hseen : st.seen.contains u = false)
    (hacc : mainAllowed pol u = true) :
    ∃ rest, (processPage pol dl now st page).2 = Effect.addSeen u :: rest ∧
      (processPage pol dl now st page).1.seen = u :: st.seen := by
  unfold processPage
  rw [hurl]
  dsimp only
  rw [hseen, hacc]
  simp only [Bool.false_eq_true, if_false, eq_self_iff_true, if_true]
  exact ⟨_, rfl, trivial⟩

/-- Witness for C2 at a concrete accepted page. -/
theorem C2_insert_first_witness :
    ∃ rest, (processPage polEx dlEx "T" {} selfLinkPage).2 =
        Effect.addSeen "https://h/a.pdf" :: rest ∧
      (processPage polEx dlEx "T" {} selfLinkPage).1.seen = ["https://h/a.pdf"] :=
  C2_insert_first polEx dlEx "T" "https://h/a.pdf" {} selfLinkPage rfl (by decide) (by decide)

/-! ## C4: policy evaluation with domain override -/

/-- The policy of the worked override example from the specification. -/
def polOverride : Policy :=
  { reSearch := substrSearch, include_patterns := ["/docs/"],
    exclude_patterns := ["/docs/archive/"], allowed_domains := ["uit.edu.vn"],
    file_extensions := [] }

/-- C4: the pattern verdict is the conjunction of the include and exclude
clauses; the final acceptance is the pattern verdict overridden by the
domain allow-list, which matches on host equality or subdomain suffix; and
in the worked example the excluded URL is accepted through the override. -/
theorem C4_policy_override :
    (∀ (m : String → String → Bool) (url : String) (inc exc : List String),
        is_allowed m url inc exc =
          ((inc.isEmpty || inc.any (fun p => m p url)) && !exc.any (fun p => m p url))) ∧
    (∀ (pol : Policy) (url : String),
        mainAllowed pol url =
          (is_allowed pol.reSearch url pol.include_patterns pol.exclude_patterns ||
            allowed_by_domain url pol.allowed_domains)) ∧
    (∀ (url : String) (doms : List String),
        allowed_by_domain url doms = true ↔
          ∃ d ∈ doms, strLower (urlparse3 url).netloc = d ∨
            strEndsWith (strLower (urlparse3 url).netloc) ("." ++ d) = true) ∧
    is_allowed substrSearch "https://uit.edu.vn/docs/archive/y" ["/docs/"] ["/docs/archive/"]
      = false ∧
    mainAllowed polOverride "https://uit.edu.vn/docs/archive/y" = true := by
  refine ⟨?_, ?_, ?_, by decide, by decide⟩
  · intro m url inc exc
    cases inc <;> cases exc <;> simp [is_allowed]
  · intro pol url
    cases h1 : is_allowed pol.reSearch url pol.include_patterns pol.exclude_patterns <;>
      cases h2 : allowed_by_domain url pol.allowed_domains <;>
      simp [mainAllowed, h1, h2]
  · intro url doms
    simp [allowed_by_domain, List.any_eq_true]

/-! ## C5: deterministic content addressing -/

/-- Every value of `hexChar` is a lowercase hex digit. -/
theorem hexChar_mem (n : Nat) : hexChar n ∈ hexDigits := by
  have h : n % 16 < 16 := Nat.mod_lt _ (by norm_num)
  unfold hexChar
  generalize n % 16 = k at h
  interval_cases k <;> decide

/-- The hex digest has 40 characters. -/
theorem sha1hex_data_length (m : List Nat) : (sha1hex m).data.length = 40 := by
  simp [sha1hex, sha1digestWords, wordHex]

/-- Every character of the hex digest is a hex digit. -/
theorem sha1hex_chars_hex (m : List Nat) : ∀ c ∈ (sha1hex m).data, c ∈ hexDigits := by
  intro c hc
  simp only [sha1hex] at hc
  obtain ⟨l, hl, hcl⟩ := List.mem_flatten.1 hc
  obtain ⟨w, _, rfl⟩ := List.mem_map.1 hl
  obtain ⟨k, _, rfl⟩ := List.mem_map.1 hcl
  exact hexChar_mem _

/-- C5: the on-disk name is the 16-character prefix of the SHA-1 hex digest
of the UTF-8 encoded URL followed by the extension — a function of the URL
string alone, so the same URL always maps to the same path; the prefix has
exactly 16 characters, all hex digits; and on the worked URL the value
matches the real SHA-1. -/
theorem C5_deterministic_addressing :
    (∀ url ext : String,
        safe_filename url ext = String.mk ((sha1hex (utf8Bytes url)).data.take 16) ++ ext ∧
        ((sha1hex (utf8Bytes url)).data.take 16).length = 16 ∧
        ∀ c ∈ (sha1hex (utf8Bytes url)).data.take 16, c ∈ hexDigits) ∧
    safe_filename "https://x.edu/a" ".html" = "7c13194e385a3ef1.html" ∧
    safe_filename "https://x.edu/a" ".pdf" = "7c13194e385a3ef1.pdf" := by
  refine ⟨?_, by decide, by decide⟩
  intro url ext
  refine ⟨rfl, ?_, ?_⟩
  · rw [List.length_take, sha1hex_data_length]
    decide
  · intro c hc
    exact sha1hex_chars_hex _ c (List.take_subset _ _ hc)

/-! ## C9: extension classification -/

/-- C9: extension selection agrees with the specified priority table
everywhere (first matching marker row wins, default `.bin`, absent or empty
content type gives `.bin`), and on the worked examples. -/
theorem C9_extension_classification :
    (∀ ct, pick_ext_by_ct ct = pickExtSpec ct) ∧
    pick_ext_by_ct (some "application/pdf") = ".pdf" ∧
    pick_ext_by_ct (some "text/html; charset=utf-8") = ".html" ∧
    pick_ext_by_ct none = ".bin" ∧
    pick_ext_by_ct (some "") = ".bin" := by
  refine ⟨?_, by decide, by decide, rfl, by decide⟩
  intro ct
  cases ct with
  | none => rfl
  | some s =>
    by_cases hs : s = ""
    · simp [pick_ext_by_ct, pickExtSpec, hs]
    · simp only [pick_ext_by_ct, pickExtSpec, hs, extTable, List.find?, List.any_cons,
        List.any_nil, if_false, Bool.or_false]
      cases h1 : strContains (strLower s) "pdf" <;>
        cases h2 : strContains (strLower s) "msword" <;>
        cases h3 : strContains (strLower s) "officedocument.wordprocessingml" <;>
        cases h4 : strContains (strLower s) "html" <;>
        cases h5 : strContains (strLower s) "spreadsheet" <;>
        cases h6 : strContains (strLower s) "excel" <;>
        cases h7 : strContains (strLower s) "presentation" <;>
        cases h8 : strContains (strLower s) "powerpoint" <;>
        simp [h1, h2, h3, h4, h5, h6, h7, h8]

/-! ## C6: fallback invocation -/

/-- Recognizer of fallback invocations. -/
def isFallbackCall : Effect → Bool
  | .fallbackCall _ => true
  | _ => false

/-- File-link processing emits no fallback invocation. -/
theorem noFB_downloadStep (dl : String → DlRes) (now pu : String) (dom : Option String)
    (raw : String) : ∀ e ∈ (downloadStep dl now pu dom raw).1, isFallbackCall e = false := by
  unfold downloadStep
  intro e he
  dsimp only at he
  split at he
  · simp at he; rcases he with rfl | rfl <;> rfl
  · simp at he; rcases he with rfl | rfl | rfl <;> rfl

/-- The download loop emits no fallback invocation. -/
theorem noFB_downloadAll (dl : String → DlRes) (now pu : String) (dom : Option String)
    (raws : List String) :
    ∀ e ∈ (downloadAll dl now pu dom raws).1, isFallbackCall e = false := by
  induction raws with
  | nil => intro e he; simp [downloadAll] at he
  | cons raw rest ih =>
    intro e he
    unfold downloadAll at he
    rw [List.mem_append] at he
    rcases he with h | h
    · exact noFB_downloadStep dl now pu dom raw e h
    · exact ih e h

/-- The navigable branch emits no fallback invocation. -/
theorem noFB_htmlBranch (pol : Policy) (dl : String → DlRes) (now url : String) (page : Page) :
    ∀ e ∈ (htmlBranch pol dl now url page).1, isFallbackCall e = false := by
  unfold htmlBranch
  intro e he
  dsimp only at he
  rw [List.mem_append, List.mem_append] at he
  rcases he with (h | h) | h
  · split at h
    · simp at h; subst h; rfl
    · simp at h
  · simp at h; subst h; rfl
  · exact noFB_downloadAll dl now url page.domain _ e h

/-- The direct-file branch emits no fallback invocation. -/
theorem noFB_directBranch (dl : String → DlRes) (now url : String) (page : Page) :
    ∀ e ∈ (directBranch dl now url page).1, isFallbackCall e = false := by
  unfold directBranch directWrite
  intro e he
  dsimp only at he
  split at he
  · split at he
    · simp at he
      rcases he with rfl | rfl | rfl <;> rfl
    · simp at he
      rcases he with rfl | rfl | rfl <;> rfl
  · simp at he
    rcases he with rfl | rfl <;> rfl
  · simp at he
    subst he
    rfl

/-- The branch dispatch emits no fallback invocation. -/
theorem noFB_pageBranch (pol : Policy) (dl : String → DlRes) (now url : String) (page : Page) :
    ∀ e ∈ (pageBranch pol dl now url page).1, isFallbackCall e = false := by
  unfold pageBranch
  split
  · dsimp only
    exact noFB_htmlBranch pol dl now url page
  · dsimp only
    exact noFB_directBranch dl now url page

/-- Page processing emits no fallback invocation. -/
theorem noFB_processPage (pol : Policy) (dl : String → DlRes) (now : String) (st : CrawlState)
    (page : Page) : ∀ e ∈ (processPage pol dl now st page).2, isFallbackCall e = false := by
  unfold processPage
  intro e he
  split at he
  · simp at he
  · split at he
    · simp at he
    · split at he
      · dsimp only at he
        rw [List.mem_cons, List.mem_append] at he
        rcases he with rfl | h | h
        · rfl
        · exact noFB_pageBranch pol dl now _ page e h
        · split at h
          · rw [List.mem_cons] at h
            rcases h with rfl | h
            · rfl
            · split at h
              · simp at h; subst h; rfl
              · simp at h
          · simp at h
      · simp at he

/-- Specialization: the fallback counter of a page trace is zero. -/
theorem countFB_processPage (pol : Policy) (dl : String → DlRes) (now s : String)
    (st : CrawlState) (page : Page) :
    countFallbackFor s (processPage pol dl now st page).2 = 0 := by
  unfold countFallbackFor
  rw [List.countP_eq_zero]
  intro e he
  have h := noFB_processPage pol dl now st page e he
  cases e <;> simp_all [isFallbackCall]

/-- The fallback counter of a page-loop trace is zero. -/
theorem countFB_processPages (pol : Policy) (dl : String → DlRes) (now s : String)
    (st : CrawlState) (pages : List Page) :
    countFallbackFor s (processPages pol dl now st pages).2 = 0 := by
  induction pages generalizing st with
  | nil => rfl
  | cons p ps ih =>
    unfold processPages countFallbackFor
    rw [List.countP_append]
    have h1 := countFB_processPage pol dl now s st p
    unfold countFallbackFor at h1 ih
    rw [h1, ih]

/-- C6: when the render stage raises for a seed, the fallback fetcher is
invoked exactly once for it; and when the fallback also fails, the seed
contributes zero processed pages — the state is unchanged and the whole
trace is the render attempt, exactly one log line recording the render
failure, and the failed fallback attempt. -/
theorem C6_fallback_once (pol : Policy) (dl : String → DlRes) (now : String) (st : CrawlState)
    (seed msg : String) (render : Except String RenderRaw) (fb : Option FBRes)
    (hr : render = .error msg) :
    countFallbackFor seed (processSeed pol dl now st seed render fb).2 = 1 ∧
    (fb.bind (mkPseudoPage seed) = none →
      processSeed pol dl now st seed render fb =
        (st, [.renderCall seed,
              .logLine ("[" ++ now ++ "] PlaywrightError " ++ seed ++ " -> " ++ msg),
              .fallbackCall seed])) := by
  subst hr
  unfold processSeed
  dsimp only
  cases hfb : fb.bind (mkPseudoPage seed) with
  | some p =>
    constructor
    · have h0 := countFB_processPages pol dl now seed st [p]
      unfold countFallbackFor at h0 ⊢
      simp [List.countP_append, List.countP_cons, h0]
    · intro h
      simp at h
  | none =>
    constructor
    · have h0 := countFB_processPages pol dl now seed st []
      unfold countFallbackFor at h0 ⊢
      simp [List.countP_append, List.countP_cons, h0]
    · intro _
      simp [processPages]

/-- Witness for C6 at a concrete raising render stage and failing
fallback. -/
theorem C6_fallback_once_witness :
    countFallbackFor "https://s.edu"
        (processSeed polEx dlEx "T" {} "https://s.edu" (.error "boom") none).2 = 1 ∧
    processSeed polEx dlEx "T" {} "https://s.edu" (.error "boom") none =
      ({}, [.renderCall "https://s.edu",
            .logLine ("[" ++ "T" ++ "] PlaywrightError " ++ "https://s.edu" ++ " -> " ++ "boom"),
            .fallbackCall "https://s.edu"]) :=
  ⟨(C6_fallback_once polEx dlEx "T" {} "https://s.edu" "boom" (.error "boom") none rfl).1,
   (C6_fallback_once polEx dlEx "T" {} "https://s.edu" "boom" (.error "boom") none rfl).2 rfl⟩

/-! ## C3: sidecar counting -/

/-- Sidecar count of one file-link step: one record, carrying the resolved
URL, exactly when the download body is non-empty. -/
theorem countMeta_downloadStep (dl : String → DlRes) (now pu : String) (dom : Option String)
    (v raw : String) :
    countMetaFor v (downloadStep dl now pu dom raw).1 =
      (if (urljoin pu raw == v) && !(dl (urljoin pu raw)).body.isEmpty then 1 else 0) := by
  unfold downloadStep countMetaFor
  dsimp only
  split
  · rename_i h
    simp [h]
  · rename_i h
    simp [h, List.countP_cons, List.countP_nil]

/-- Sidecar count of the download loop, as a count over the link list. -/
theorem countMeta_downloadAll (dl : String → DlRes) (now pu : String) (dom : Option String)
    (v : String) (raws : List String) :
    countMetaFor v (downloadAll dl now pu dom raws).1 =
      raws.countP (fun raw => (urljoin pu raw == v) && !(dl (urljoin pu raw)).body.isEmpty) := by
  induction raws with
  | nil => rfl
  | cons raw rest ih =>
    unfold downloadAll countMetaFor
    rw [List.countP_append, List.countP_cons]
    have h1 := countMeta_downloadStep dl now pu dom v raw
    unfold countMetaFor at h1 ih
    rw [h1, ih]
    omega

/-- Sidecar count of the navigable branch for the page URL itself: the one
page sidecar plus one per harvested file link that resolves back to the
page URL and downloads non-empty. -/
theorem countMeta_htmlBranch (pol : Policy) (dl : String → DlRes) (now u : String)
    (page : Page) :
    countMetaFor u (htmlBranch pol dl now u page).1 =
      1 + ((page_links page).filter (fun l => looks_like_file l pol.file_extensions)).countP
            (fun raw => (urljoin u raw == u) && !(dl (urljoin u raw)).body.isEmpty) := by
  unfold htmlBranch countMetaFor
  dsimp only
  rw [List.countP_append, List.countP_append]
  have hd := countMeta_downloadAll dl now u page.domain u
    ((page_links page).filter (fun l => looks_like_file l pol.file_extensions))
  unfold countMetaFor at hd
  rw [hd]
  split <;> simp

/-- With no carried body, the direct-file branch writes exactly one
sidecar for the URL, whether or not the fresh download succeeds. -/
theorem countMeta_directBranch_none (dl : String → DlRes) (now u : String) (page : Page)
    (hc : directContent page = none) :
    countMetaFor u (directBranch dl now u page).1 = 1 := by
  unfold directBranch directWrite countMetaFor
  rw [hc]
  dsimp only
  split <;> simp

/-- With a carried bytes body, the direct-file branch writes exactly one
sidecar for the URL. -/
theorem countMeta_directBranch_bytes (dl : String → DlRes) (now u : String) (page : Page)
    (bs : List Nat) (hc : directContent page = some (.pbytes bs)) :
    countMetaFor u (directBranch dl now u page).1 = 1 := by
  unfold directBranch directWrite countMetaFor
  rw [hc]
  simp

/-- With a carried truthy string body, the direct-file branch is the
raising `write_bytes` call and nothing else: no sidecar, no file, no log
write. -/
theorem directBranch_str (dl : String → DlRes) (now u : String) (page : Page)
    (s : String) (hc : directContent page = some (.pstr s)) :
    directBranch dl now u page =
      ([Effect.typeError
          ("output_raw/files/" ++ safe_filename u (pick_ext_by_ct (page_content_type page)))],
       0, false) := by
  unfold directBranch
  rw [hc]

/-- The accepted-page trace, spelled out. -/
theorem processPage_accepted_trace (pol : Policy) (dl : String → DlRes) (now : String)
    (st : CrawlState) (page : Page) (u : String)
    (hurl : page.url = some u) (hseen : st.seen.contains u = false)
    (hacc : mainAllowed pol u = true) :
    (processPage pol dl now st page).2 =
      Effect.addSeen u :: ((pageBranch pol dl now u page).1 ++
        (if (pageBranch pol dl now u page).2.2.2 then
          Effect.logLine (attemptLine now u page.status) ::
            (if (st.fetched + 1) % 100 == 0 then [Effect.saveSeen (u :: st.seen)] else [])
        else [])) := by
  unfold processPage
  rw [hurl]
  dsimp only
  rw [hseen, hacc]
  simp only [Bool.false_eq_true, if_false, eq_self_iff_true, if_true]

/-- The log-and-checkpoint tail holds no sidecar write. -/
theorem countMeta_tailEffs (v : String) (c c2 : Bool) (l : String) (s : List String) :
    countMetaFor v
      (if c then Effect.logLine l :: (if c2 then [Effect.saveSeen s] else []) else []) = 0 := by
  cases c <;> cases c2 <;> simp [countMetaFor]

/-- For an accepted page, all sidecar writes of the trace come from the
classification branch. -/
theorem countMeta_accepted (pol : Policy) (dl : String → DlRes) (now : String)
    (st : CrawlState) (page : Page) (u v : String)
    (hurl : page.url = some u) (hseen : st.seen.contains u = false)
    (hacc : mainAllowed pol u = true) :
    countMetaFor v (processPage pol dl now st page).2 =
      countMetaFor v (pageBranch pol dl now u page).1 := by
  rw [processPage_accepted_trace pol dl now st page u hurl hseen hacc]
  unfold countMetaFor
  rw [List.countP_cons, List.countP_append]
  have ht := countMeta_tailEffs v (pageBranch pol dl now u page).2.2.2
    ((st.fetched + 1) % 100 == 0) (attemptLine now u page.status) (u :: st.seen)
  unfold countMetaFor at ht
  rw [ht]
  simp

/-- C3 counterexample: a navigable page whose own URL is harvested as a
file link of itself (`a.pdf` on page `https://h/a.pdf`) passes the frontier
and policy checks yet produces TWO sidecar records carrying that URL — the
page sidecar and the downloaded-file sidecar — so the claimed exactly-one
bound fails. -/
theorem C3_exactly_one_sidecar_cex :
    selfLinkPage.url = some "https://h/a.pdf" ∧
    ({} : CrawlState).seen.contains "https://h/a.pdf" = false ∧
    mainAllowed polEx "https://h/a.pdf" = true ∧
    countMetaFor "https://h/a.pdf" (processPage polEx dlEx "T" {} selfLinkPage).2 = 2 := by
  exact ⟨rfl, by decide, by decide, by decide⟩

/-- The direct-file branch when both the page-carried body and the fresh
download are empty: log line plus the one empty-binary sidecar, no file
write, and no fall-through. -/
theorem directBranch_empty (dl : String → DlRes) (now u : String) (page : Page)
    (hc : directContent page = none) (hb : (dl u).body = []) :
    directBranch dl now u page =
      ([.downloadCall u, .logLine ("[" ++ now ++ "] DirectFileError " ++ u),
        .writeMeta ("output_raw/meta/" ++ safe_filename u ".json")
          { url := u, fetched_at := now, status := (dl u).status, content_type := (dl u).ctype,
            domain := page.domain, notes := some "empty binary" }], 0, false) := by
  unfold directBranch
  rw [hc]
  simp [hb]

/-- C3 (amended): an accepted page yields exactly one page-level sidecar
for its URL on the navigable path (even with empty HTML text) and on the
direct-file path whenever the carried content is bytes or absent — in the
absent case even when the fresh download is also empty, then with the
`empty binary` note and no file write.  On the navigable path, additional
sidecars can carry the same URL only through harvested file links that
resolve back to the page URL itself and download non-empty, so the total is
one plus the number of such self-resolving links.  When the carried content
is a truthy string (reachable only as a whitespace-only string, since any
other string routes the page to the navigable path), `write_bytes` raises
an uncaught TypeError and the run terminates with zero sidecars for the
URL: the page's trace is the frontier insertion and the raising call,
nothing else. -/
theorem C3_one_sidecar (pol : Policy) (dl : String → DlRes) (now : String)
    (st : CrawlState) (page : Page) (u : String)
    (hurl : page.url = some u) (hseen : st.seen.contains u = false)
    (hacc : mainAllowed pol u = true) :
    (page_is_html page = true →
      countMetaFor u (processPage pol dl now st page).2 =
        1 + ((page_links page).filter (fun l => looks_like_file l pol.file_extensions)).countP
              (fun raw => (urljoin u raw == u) && !(dl (urljoin u raw)).body.isEmpty)) ∧
    (page_is_html page = false → directContent page = none →
      countMetaFor u (processPage pol dl now st page).2 = 1) ∧
    (page_is_html page = false → ∀ bs, directContent page = some (.pbytes bs) →
      countMetaFor u (processPage pol dl now st page).2 = 1) ∧
    (page_is_html page = false → directContent page = none → (dl u).body = [] →
      Effect.writeMeta ("output_raw/meta/" ++ safe_filename u ".json")
          { url := u, fetched_at := now, status := (dl u).status,
            content_type := (dl u).ctype, domain := page.domain,
            notes := some "empty binary" } ∈ (processPage pol dl now st page).2 ∧
      countFileWrites (processPage pol dl now st page).2 = 0) ∧
    (page_is_html page = false → ∀ s, directContent page = some (.pstr s) →
      (processPage pol dl now st page).2 =
        [Effect.addSeen u,
         Effect.typeError
           ("output_raw/files/" ++ safe_filename u (pick_ext_by_ct (page_content_type page)))] ∧
      countMetaFor u (processPage pol dl now st page).2 = 0) := by
  refine ⟨?_, ?_, ?_, ?_, ?_⟩
  · intro hh
    rw [countMeta_accepted pol dl now st page u u hurl hseen hacc]
    simp only [pageBranch, hh, eq_self_iff_true, if_true]
    exact countMeta_htmlBranch pol dl now u page
  · intro hh hc
    rw [countMeta_accepted pol dl now st page u u hurl hseen hacc]
    simp only [pageBranch, hh, Bool.false_eq_true, if_false]
    exact countMeta_directBranch_none dl now u page hc
  · intro hh bs hc
    rw [countMeta_accepted pol dl now st page u u hurl hseen hacc]
    simp only [pageBranch, hh, Bool.false_eq_true, if_false]
    exact countMeta_directBranch_bytes dl now u page bs hc
  · intro hh hc hb
    have htr := processPage_accepted_trace pol dl now st page u hurl hseen hacc
    have hdb := directBranch_empty dl now u page hc hb
    rw [htr]
    simp only [pageBranch, hh, Bool.false_eq_true, if_false]
    rw [hdb]
    constructor
    · simp
    · simp [countFileWrites]
  · intro hh s hc
    have htr := processPage_accepted_trace pol dl now st page u hurl hseen hacc
    have hdb := directBranch_str dl now u page s hc
    constructor
    · rw [htr]
      simp only [pageBranch, hh, Bool.false_eq_true, if_false]
      rw [hdb]
      simp
    · rw [countMeta_accepted pol dl now st page u u hurl hseen hacc]
      simp only [pageBranch, hh, Bool.false_eq_true, if_false]
      rw [hdb]
      simp [countMetaFor]

/-- A direct-file seed page with no carried content. -/
def emptyDirectPage : Page :=
  { url := some "https://e.edu/f.pdf", content_type := some "application/pdf" }

/-- A direct-file seed page carrying whitespace-only string content: truthy
for the falsiness test, blank for the HTML probe. -/
def strContentPage : Page :=
  { url := some "https://e.edu/s.pdf", content := some (.pstr " ") }

/-- Witness for the amended C3 at a concrete empty direct-file page and a
concrete whitespace-string-content page. -/
theorem C3_one_sidecar_witness :
    countMetaFor "https://e.edu/f.pdf" (processPage polEx dlEx "T" {} emptyDirectPage).2 = 1 ∧
    Effect.writeMeta ("output_raw/meta/" ++ safe_filename "https://e.edu/f.pdf" ".json")
        { url := "https://e.edu/f.pdf", fetched_at := "T",
          status := (dlEx "https://e.edu/f.pdf").status,
          content_type := (dlEx "https://e.edu/f.pdf").ctype, domain := none,
          notes := some "empty binary" } ∈ (processPage polEx dlEx "T" {} emptyDirectPage).2 ∧
    countFileWrites (processPage polEx dlEx "T" {} emptyDirectPage).2 = 0 ∧
    (processPage polEx dlEx "T" {} strContentPage).2 =
      [Effect.addSeen "https://e.edu/s.pdf",
       Effect.typeError
         ("output_raw/files/" ++
           safe_filename "https://e.edu/s.pdf"
             (pick_ext_by_ct (page_content_type strContentPage)))] ∧
    countMetaFor "https://e.edu/s.pdf" (processPage polEx dlEx "T" {} strContentPage).2 = 0 :=
  ⟨(C3_one_sidecar polEx dlEx "T" {} emptyDirectPage "https://e.edu/f.pdf"
      rfl (by decide) (by decide)).2.1 (by decide) rfl,
   ((C3_one_sidecar polEx dlEx "T" {} emptyDirectPage "https://e.edu/f.pdf"
      rfl (by decide) (by decide)).2.2.2.1 (by decide) rfl rfl).1,
   ((C3_one_sidecar polEx dlEx "T" {} emptyDirectPage "https://e.edu/f.pdf"
      rfl (by decide) (by decide)).2.2.2.1 (by decide) rfl rfl).2,
   ((C3_one_sidecar polEx dlEx "T" {} strContentPage "https://e.edu/s.pdf"
      rfl (by decide) (by decide)).2.2.2.2 (by decide) " " (by decide)).1,
   ((C3_one_sidecar polEx dlEx "T" {} strContentPage "https://e.edu/s.pdf"
      rfl (by decide) (by decide)).2.2.2.2 (by decide) " " (by decide)).2⟩

/-! ## C7: link harvester -/

/-- A page exposing two non-empty native link fields at once. -/
def twoFieldPage : Page :=
  { out_links := some [.lstr "a"], links := some [.lstr "b"] }

/-- C7 counterexample: with two non-empty native link fields, the source
harvests from BOTH fields, while the specified first-non-empty-field rule
keeps only the first — the harvested lists differ. -/
theorem C7_link_harvester_cex :
    page_links twoFieldPage = ["a", "b"] ∧
    page_links_specFirst twoFieldPage = ["a"] ∧
    page_links twoFieldPage ≠ page_links_specFirst twoFieldPage := by
  exact ⟨by decide, by decide, by decide⟩

/-- The fused cleanup loop equals cleanup followed by generic first-seen
deduplication, relative to an already-seen accumulator. -/
theorem dedupLoop_spec (items : List LinkItem) : ∀ seenL,
    dedupLoop items seenL =
      dedupKeepFirst (((items.filterMap cleanItem).filter (fun v => !seenL.contains v))) := by
  induction items with
  | nil => intro seenL; simp [dedupLoop, dedupKeepFirst]
  | cons it rest ih =>
    intro seenL
    cases it with
    | lother => simp [dedupLoop, cleanItem, ih]
    | lstr s =>
      by_cases hu : pyStrip s = ""
      · simp [dedupLoop, cleanItem, hu, ih]
      · by_cases hc : pyStrip s ∈ seenL
        · simp [dedupLoop, cleanItem, hu, hc, ih]
        · have hL : dedupLoop (.lstr s :: rest) seenL =
              pyStrip s :: dedupLoop rest (pyStrip s :: seenL) := by
            simp [dedupLoop, hu, hc]
          have hR : ((LinkItem.lstr s :: rest).filterMap cleanItem).filter
                (fun v => !seenL.contains v) =
              pyStrip s :: (rest.filterMap cleanItem).filter (fun v => !seenL.contains v) := by
            simp [cleanItem, hu, hc]
          rw [hL, hR, dedupKeepFirst, ih (pyStrip s :: seenL)]
          congr 1
          rw [List.filter_filter]
          refine congrArg dedupKeepFirst (List.filter_congr ?_)
          intro a _
          by_cases hay : a = pyStrip s <;> by_cases has : a ∈ seenL <;>
            simp [hay, has, List.contains_cons]

/-- Membership is preserved by first-seen deduplication. -/
theorem dedupKeepFirst_mem (l : List String) (x : String) :
    x ∈ dedupKeepFirst l ↔ x ∈ l := by
  induction l using dedupKeepFirst.induct with
  | case1 => simp [dedupKeepFirst]
  | case2 y ys ih =>
    rw [dedupKeepFirst]
    simp only [ne_eq, decide_not] at ih ⊢
    by_cases hxy : x = y
    · subst hxy; simp
    · simp [hxy, ih, List.mem_filter]

/-- First-seen deduplication yields a duplicate-free list. -/
theorem dedupKeepFirst_nodup (l : List String) : (dedupKeepFirst l).Nodup := by
  induction l using dedupKeepFirst.induct with
  | case1 => simp [dedupKeepFirst]
  | case2 y ys ih =>
    rw [dedupKeepFirst]
    refine List.nodup_cons.mpr ⟨?_, ih⟩
    rw [dedupKeepFirst_mem]
    simp [List.mem_filter]

/-- The cleanup never yields the empty string. -/
theorem cleanItem_ne_empty (it : LinkItem) : cleanItem it ≠ some "" := by
  cases it with
  | lother => simp [cleanItem]
  | lstr s =>
    by_cases hu : pyStrip s = "" <;> simp [cleanItem, hu]

/-- C7 (amended): the harvested list is the first-seen-order deduplication
of the cleaned concatenation of ALL non-empty native link fields (in
priority order) with the `href`/`src` pattern-scan candidates; non-string
and blank-after-strip entries are discarded, the result is duplicate-free,
and entries are returned as harvested — unresolved, since no resolution is
applied at extraction time. -/
theorem C7_link_harvester (p : Page) :
    page_links p =
      dedupKeepFirst
        ((nativeCandidates p ++ (scanCandidates p).map LinkItem.lstr).filterMap cleanItem) ∧
    (page_links p).Nodup ∧
    "" ∉ page_links p := by
  have h := dedupLoop_spec (nativeCandidates p ++ (scanCandidates p).map .lstr) []
  have h0 : page_links p =
      dedupKeepFirst
        ((nativeCandidates p ++ (scanCandidates p).map LinkItem.lstr).filterMap cleanItem) := by
    rw [page_links, h]
    simp
  refine ⟨h0, ?_, ?_⟩
  · rw [h0]; exact dedupKeepFirst_nodup _
  · rw [h0, dedupKeepFirst_mem]
    intro hmem
    obtain ⟨it, _, hit⟩ := List.mem_filterMap.1 hmem
    exact cleanItem_ne_empty it hit

/-! ## C8: error containment -/

/-- Recognizer of HTML body writes. -/
def isWriteHtml : Effect → Bool
  | .writeHtml _ _ => true
  | _ => false

/-- A navigable page with body text and no links. -/
def htmlOnlyPage : Page := { url := some "https://h/p", html := some (.pstr "x") }

/-- C8 counterexample: failing the second operation of a processed page's
trace — an HTML body write, i.e. a persistence operation — crashes the
replay, because the source does not wrap that write in any handler; so not
every persistence failure is swallowed. -/
theorem C8_nonfatal_cex :
    isWriteHtml ((processPage polEx dlEx "T" {} htmlOnlyPage).2.getD 1 (.logLine "")) = true ∧
    crashed (runEffects [false, true] (processPage polEx dlEx "T" {} htmlOnlyPage).2) = true := by
  exact ⟨by decide, by decide⟩

/-- Replay in which exactly the catchable operations fail: the run
completes, with all other operations executed. -/
theorem runEffects_seenFail (effs : List Effect) :
    runEffects (effs.map effCatchable) effs =
      .ok (effs.filter (fun e => !effCatchable e)) := by
  induction effs with
  | nil => rfl
  | cons e es ih =>
    unfold runEffects
    cases he : effCatchable e
    · simp [he, ih]
    · have hio : effIsIO e = true := by
        cases e <;> simp_all [effCatchable, effIsIO]
      simp [he, hio, ih]

/-- Replay with no failures executes the whole trace. -/
theorem runEffects_noFail (effs : List Effect) : runEffects [] effs = .ok effs := by
  induction effs with
  | nil => rfl
  | cons e es ih => simp [runEffects, ih]

/-- C8 (amended): over a whole run's trace, failures of the frontier-file
checkpoints — the only operations the source wraps in a handler — are
swallowed and the run continues with every other operation still executed;
a failure of any bare write (HTML body, binary file, sidecar, attempt log)
terminates the run instead, as the counterexample shows. -/
theorem C8_error_containment (pol : Policy) (dl : String → DlRes) (now : String)
    (st : CrawlState) (srs : List SeedRun) :
    runEffects ((runCrawl pol dl now st srs).2.map effCatchable)
        (runCrawl pol dl now st srs).2 =
      .ok ((runCrawl pol dl now st srs).2.filter (fun e => !effCatchable e)) ∧
    runEffects [] (runCrawl pol dl now st srs).2 = .ok (runCrawl pol dl now st srs).2 :=
  ⟨runEffects_seenFail _, runEffects_noFail _⟩

/-! ## C10: file-link URLs never enter the frontier -/

/-- The state after an accepted page: only the page URL joins the seen
set. -/
theorem processPage_accepted_state (pol : Policy) (dl : String → DlRes) (now : String)
    (st : CrawlState) (page : Page) (u : String)
    (hurl : page.url = some u) (hseen : st.seen.contains u = false)
    (hacc : mainAllowed pol u = true) :
    (processPage pol dl now st page).1.seen = u :: st.seen := by
  unfold processPage
  rw [hurl]
  dsimp only
  rw [hseen, hacc]
  simp only [Bool.false_eq_true, if_false, eq_self_iff_true, if_true]

/-- A file link with a non-empty download leaves its body write in the
download-loop trace, at the content address of the resolved URL. -/
theorem writeFile_mem_downloadAll (dl : String → DlRes) (now pu : String)
    (dom : Option String) (raws : List String) (raw : String)
    (hraw : raw ∈ raws) (hbody : ¬(dl (urljoin pu raw)).body.isEmpty = true) :
    Effect.writeFile
        ("output_raw/files/" ++
          safe_filename (urljoin pu raw) (pick_ext_by_ct (dl (urljoin pu raw)).ctype))
        (dl (urljoin pu raw)).body ∈ (downloadAll dl now pu dom raws).1 := by
  induction raws with
  | nil => simp at hraw
  | cons r rest ih =>
    unfold downloadAll
    dsimp only
    rw [List.mem_append]
    rcases List.mem_cons.1 hraw with rfl | h
    · left
      unfold downloadStep
      dsimp only
      rw [if_neg hbody]
      simp
    · right
      exact ih h

/-- Same body write, lifted to the navigable branch. -/
theorem writeFile_mem_htmlBranch (pol : Policy) (dl : String → DlRes) (now u : String)
    (page : Page) (raw : String)
    (hraw : raw ∈ (page_links page).filter (fun l => looks_like_file l pol.file_extensions))
    (hbody : ¬(dl (urljoin u raw)).body.isEmpty = true) :
    Effect.writeFile
        ("output_raw/files/" ++
          safe_filename (urljoin u raw) (pick_ext_by_ct (dl (urljoin u raw)).ctype))
        (dl (urljoin u raw)).body ∈ (htmlBranch pol dl now u page).1 := by
  unfold htmlBranch
  dsimp only
  rw [List.mem_append]
  right
  exact writeFile_mem_downloadAll dl now u page.domain _ raw hraw hbody

/-- Same body write, lifted to the accepted page's full trace. -/
theorem writeFile_mem_processPage (pol : Policy) (dl : String → DlRes) (now : String)
    (st : CrawlState) (page : Page) (u raw : String)
    (hurl : page.url = some u) (hseen : st.seen.contains u = false)
    (hacc : mainAllowed pol u = true) (hh : page_is_html page = true)
    (hraw : raw ∈ (page_links page).filter (fun l => looks_like_file l pol.file_extensions))
    (hbody : ¬(dl (urljoin u raw)).body.isEmpty = true) :
    Effect.writeFile
        ("output_raw/files/" ++
          safe_filename (urljoin u raw) (pick_ext_by_ct (dl (urljoin u raw)).ctype))
        (dl (urljoin u raw)).body ∈ (processPage pol dl now st page).2 := by
  rw [processPage_accepted_trace pol dl now st page u hurl hseen hacc]
  rw [List.mem_cons, List.mem_append]
  right; left
  simp only [pageBranch, hh, eq_self_iff_true, if_true]
  exact writeFile_mem_htmlBranch pol dl now u page raw hraw hbody

/-- C10: processing two accepted navigable pages that both harvest a
file-like link resolving to the same URL `f` adds only the page URLs to the
frontier; each page's trace contains the body write for `f`, both at the
SAME content-addressed path; and `f` itself — unless it is a page URL or
already seen — is still outside the frontier afterwards, hence eligible for
re-download in later runs. -/
theorem C10_file_links_not_in_frontier (pol : Policy) (dl : String → DlRes) (now : String)
    (st1 st2 : CrawlState) (p1 p2 : Page) (u1 u2 f raw1 raw2 : String)
    (h1url : p1.url = some u1) (h1seen : st1.seen.contains u1 = false)
    (h1acc : mainAllowed pol u1 = true) (h1html : page_is_html p1 = true)
    (hraw1 : raw1 ∈ (page_links p1).filter (fun l => looks_like_file l pol.file_extensions))
    (hf1 : urljoin u1 raw1 = f)
    (h2url : p2.url = some u2) (h2seen : st2.seen.contains u2 = false)
    (h2acc : mainAllowed pol u2 = true) (h2html : page_is_html p2 = true)
    (hraw2 : raw2 ∈ (page_links p2).filter (fun l => looks_like_file l pol.file_extensions))
    (hf2 : urljoin u2 raw2 = f)
    (hbody : ¬(dl f).body.isEmpty = true) :
    (processPage pol dl now st1 p1).1.seen = u1 :: st1.seen ∧
    (processPage pol dl now st2 p2).1.seen = u2 :: st2.seen ∧
    Effect.writeFile ("output_raw/files/" ++ safe_filename f (pick_ext_by_ct (dl f).ctype))
        (dl f).body ∈ (processPage pol dl now st1 p1).2 ∧
    Effect.writeFile ("output_raw/files/" ++ safe_filename f (pick_ext_by_ct (dl f).ctype))
        (dl f).body ∈ (processPage pol dl now st2 p2).2 ∧
    (f ∉ st1.seen → f ≠ u1 → f ∉ (processPage pol dl now st1 p1).1.seen) := by
  refine ⟨processPage_accepted_state pol dl now st1 p1 u1 h1url h1seen h1acc,
          processPage_accepted_state pol dl now st2 p2 u2 h2url h2seen h2acc, ?_, ?_, ?_⟩
  · have h := writeFile_mem_processPage pol dl now st1 p1 u1 raw1 h1url h1seen h1acc h1html
      hraw1 (by rw [hf1]; exact hbody)
    rw [hf1] at h
    exact h
  · have h := writeFile_mem_processPage pol dl now st2 p2 u2 raw2 h2url h2seen h2acc h2html
      hraw2 (by rw [hf2]; exact hbody)
    rw [hf2] at h
    exact h
  · intro hnot hne
    rw [processPage_accepted_state pol dl now st1 p1 u1 h1url h1seen h1acc]
    simp [hne, hnot]

/-- Two navigable pages whose harvested links resolve to the same file. -/
def pageA : Page := { url := some "https://h/x", html := some (.pstr "<a href='a.pdf'>") }

/-- The second page, linking the same file by absolute path. -/
def pageB : Page := { url := some "https://h/y", html := some (.pstr "<a href='/a.pdf'>") }

/-- Witness for C10 at two concrete pages linking the same PDF. -/
theorem C10_file_links_not_in_frontier_witness :
    (processPage polEx dlEx "T" {} pageA).1.seen = ["https://h/x"] ∧
    (processPage polEx dlEx "T" {} pageB).1.seen = ["https://h/y"] ∧
    Effect.writeFile
        ("output_raw/files/" ++
          safe_filename "https://h/a.pdf" (pick_ext_by_ct (dlEx "https://h/a.pdf").ctype))
        (dlEx "https://h/a.pdf").body ∈ (processPage polEx dlEx "T" {} pageA).2 ∧
    Effect.writeFile
        ("output_raw/files/" ++
          safe_filename "https://h/a.pdf" (pick_ext_by_ct (dlEx "https://h/a.pdf").ctype))
        (dlEx "https://h/a.pdf").body ∈ (processPage polEx dlEx "T" {} pageB).2 ∧
    ("https://h/a.pdf" ∉ ([] : List String) → "https://h/a.pdf" ≠ "https://h/x" →
      "https://h/a.pdf" ∉ (processPage polEx dlEx "T" {} pageA).1.seen) :=
  C10_file_links_not_in_frontier polEx dlEx "T" {} {} pageA pageB
    "https://h/x" "https://h/y" "https://h/a.pdf" "a.pdf" "/a.pdf"
    rfl (by decide) (by decide) (by decide) (by decide) (by decide)
    rfl (by decide) (by decide) (by decide) (by decide) (by decide)
    (by decide)
